import Mathlib

/-!
Verification development for the comet ORM compiler core (Go).

The definitions below are a shallow embedding of the repository's source:
the schema parser (gen/parser.go), the type mapper and naming helpers
(core/utils.go), the query-building facade (core, QueryExecutor) and the
three dialect compilers (drivers/postgres, drivers/mysql, drivers/sqlite).
Go strings become Lean String, Go slices become List, Go interface{}
values carried by queries become the closed inductive Value / DefaultVal,
nil-able defaults become Option, and fallible parsing returns Except.
-/

set_option maxHeartbeats 1000000

namespace Comet

/-- Run-time argument values bound to a query (Go interface\x7b\x7d restricted
to the shapes the facade actually stores: ints, strings, booleans). -/
inductive Value where
  | int (n : Int)
  | str (s : String)
  | bool (b : Bool)
deriving DecidableEq, Repr

/-- Default values carried by a FieldSchema (Go interface\x7b\x7d as produced
by the parser: strings and booleans; ints kept for the %v fallthrough). -/
inductive DefaultVal where
  | str (s : String)
  | bool (b : Bool)
  | int (n : Int)
deriving DecidableEq, Repr

/-- Go fmt %v rendering of a Value. -/
def goFormatValue : Value → String
  | .int n => Int.repr n
  | .str s => s
  | .bool b => if b then "true" else "false"

/-- core.WhereClause. -/
structure WhereClause where
  Field : String
  Operator : String
  Value : Value
  Not : Bool
deriving DecidableEq, Repr

/-- core.OrderClause. -/
structure OrderClause where
  Field : String
  Direction : String
deriving DecidableEq, Repr

/-- core.Query. -/
structure Query where
  Table : String
  Fields : List String
  Wheres : List WhereClause
  Orders : List OrderClause
  LimitVal : Option Int
  OffsetVal : Option Int
  Includes : List String
deriving DecidableEq, Repr

/-- strings.Join: join a list of strings with a separator. -/
def joinSep (sep : String) : List String → String
  | [] => ""
  | [s] => s
  | s :: rest => s ++ sep ++ joinSep sep rest

/-- Number of occurrences of a character in a string. -/
def countChar (s : String) (c : Char) : Nat := s.data.count c

/-- strings.HasSuffix. -/
def hasSuf (s suf : String) : Bool := suf.data.isSuffixOf s.data

/-- strings.HasPrefix. -/
def hasPre (s pre : String) : Bool := pre.data.isPrefixOf s.data

/-- strings.TrimSuffix. -/
def trimSuf (s suf : String) : String :=
  if hasSuf s suf then (s.data.take (s.data.length - suf.data.length)).asString else s

/-- strings.TrimPrefix. -/
def trimPre (s pre : String) : String :=
  if hasPre s pre then (s.data.drop pre.data.length).asString else s

/-- Accumulator worker for goFields: walks the characters, flushing the
current token at each whitespace run. -/
def goFieldsAux : List Char → List Char → List String
  | [], acc => if acc = [] then [] else [acc.reverse.asString]
  | c :: rest, acc =>
    if c.isWhitespace then
      (if acc = [] then [] else [acc.reverse.asString]) ++ goFieldsAux rest []
    else goFieldsAux rest (c :: acc)

/-- strings.Fields: the maximal whitespace-free runs of the string. -/
def goFields (s : String) : List String := goFieldsAux s.data []

/-- strings.TrimSpace: drop leading and trailing whitespace. -/
def goTrim (s : String) : String :=
  ((s.data.dropWhile Char.isWhitespace).reverse.dropWhile Char.isWhitespace).reverse.asString

/-- strings.Split on a one-character separator (keeps empty pieces). -/
def splitOnCharAux (sep : Char) : List Char → List Char → List String
  | [], acc => [acc.reverse.asString]
  | c :: rest, acc =>
    if c = sep then acc.reverse.asString :: splitOnCharAux sep rest []
    else splitOnCharAux sep rest (c :: acc)

/-- strings.Split s "," over this embedding's strings. -/
def splitComma (s : String) : List String := splitOnCharAux ',' s.data []

/-- strings.ReplaceAll s " " "": removing every space character. -/
def removeSpaces (s : String) : String := (s.data.filter (fun c => c ≠ ' ')).asString

/-! ## Type mapper (core/utils.go) -/

/-- getPostgresType from core/utils.go. -/
def getPostgresType (goType : String) : String :=
  if goType = "int" ∨ goType = "Int" then "INTEGER"
  else if goType = "int64" then "BIGINT"
  else if goType = "string" ∨ goType = "String" then "VARCHAR(255)"
  else if goType = "bool" ∨ goType = "Boolean" then "BOOLEAN"
  else if goType = "float64" ∨ goType = "Float" then "DOUBLE PRECISION"
  else if goType = "time.Time" ∨ goType = "DateTime" then "TIMESTAMP"
  else "TEXT"

/-- getMySQLType from core/utils.go. -/
def getMySQLType (goType : String) : String :=
  if goType = "int" ∨ goType = "Int" then "INT"
  else if goType = "int64" then "BIGINT"
  else if goType = "string" ∨ goType = "String" then "VARCHAR(255)"
  else if goType = "bool" ∨ goType = "Boolean" then "BOOLEAN"
  else if goType = "float64" ∨ goType = "Float" then "DOUBLE"
  else if goType = "time.Time" ∨ goType = "DateTime" then "TIMESTAMP"
  else "TEXT"

/-- getSQLiteType from core/utils.go. -/
def getSQLiteType (goType : String) : String :=
  if goType = "int" ∨ goType = "Int" ∨ goType = "int64" then "INTEGER"
  else if goType = "string" ∨ goType = "String" then "TEXT"
  else if goType = "bool" ∨ goType = "Boolean" then "INTEGER"
  else if goType = "float64" ∨ goType = "Float" then "REAL"
  else if goType = "time.Time" ∨ goType = "DateTime" then "DATETIME"
  else "TEXT"

/-- GetSQLType from core/utils.go: strip a trailing optional marker, then
dispatch on the driver name (unknown drivers fall back to sqlite). -/
def GetSQLType (goType driver : String) : String :=
  let baseType := trimSuf goType "?"
  if driver = "postgres" then getPostgresType baseType
  else if driver = "mysql" then getMySQLType baseType
  else if driver = "sqlite" then getSQLiteType baseType
  else getSQLiteType baseType

/-! ## Naming helpers (core/utils.go) -/

/-- Character-level worker for ToSnakeCase; the Bool flag records whether
we are at the first rune (Go tests the byte index i > 0). -/
def toSnakeAux : Bool → List Char → List Char
  | _, [] => []
  | isFirst, c :: rest =>
    (if !isFirst && c.isUpper then ['_', c.toLower] else [c.toLower]) ++ toSnakeAux false rest

/-- ToSnakeCase from core/utils.go. -/
def ToSnakeCase (s : String) : String := (toSnakeAux true s.data).asString

/-- ToPlural from core/utils.go. -/
def ToPlural (str : String) : String :=
  if hasSuf str "y" then (str.data.take (str.data.length - 1)).asString ++ "ies"
  else if hasSuf str "s" ∨ hasSuf str "x" ∨ hasSuf str "z" ∨ hasSuf str "ch" ∨ hasSuf str "sh" then
    str ++ "es"
  else str ++ "s"

/-- GetTableName from core/utils.go. -/
def GetTableName (modelName : String) : String := ToPlural (ToSnakeCase modelName)

/-! ## Query facade (core, QueryExecutor) -/

/-- NewQueryExecutor: the fresh abstract query (fields default to all
columns); the model type and row scanner are execution-side collaborators
outside this embedding. -/
def NewQueryExecutor (table : String) : Query :=
  { Table := table, Fields := ["*"], Wheres := [], Orders := [],
    LimitVal := none, OffsetVal := none, Includes := [] }

/-- QueryExecutor.Where. -/
def QueryExecutor.Where (qe : Query) (field operator : String) (value : Value) : Query :=
  { qe with Wheres := qe.Wheres ++ [{ Field := field, Operator := operator, Value := value, Not := false }] }

/-- QueryExecutor.WhereIn: the element values are rendered into a
placeholder-group string and the elements themselves are discarded. -/
def QueryExecutor.WhereIn (qe : Query) (field : String) (values : List Value) : Query :=
  let placeholders := values.map (fun _ => "?")
  { qe with Wheres := qe.Wheres ++
      [{ Field := field, Operator := "IN",
         Value := .str ("(" ++ joinSep "," placeholders ++ ")"), Not := false }] }

/-- QueryExecutor.WhereNot. -/
def QueryExecutor.WhereNot (qe : Query) (field operator : String) (value : Value) : Query :=
  { qe with Wheres := qe.Wheres ++ [{ Field := field, Operator := operator, Value := value, Not := true }] }

/-! ## Query compilers (drivers/sqlite.go, drivers/mysql.go,
postgres driver, and QueryExecutor.buildSelectQueryFromQuery).
The sqlite driver, the mysql driver and the executor's own builder share a
textually identical loop body in the source; it is embedded once below. -/

/-- One where-clause fragment in the unnumbered-placeholder dialects. -/
def qmarkWhereFragment (w : WhereClause) : String :=
  let operator := if w.Not then "NOT " ++ w.Operator else w.Operator
  if w.Operator = "IN" then
    w.Field ++ " " ++ operator ++ " " ++ goFormatValue w.Value
  else
    w.Field ++ " " ++ operator ++ " ?"

/-- One order-clause fragment. -/
def orderFragment (o : OrderClause) : String := o.Field ++ " " ++ o.Direction

/-- The parts list assembled by the '?'-placeholder compilers, joined with
single spaces to give the SQL text. -/
def qmarkParts (query : Query) : List String :=
  ["SELECT " ++ joinSep ", " query.Fields ++ " FROM " ++ query.Table]
  ++ (if query.Wheres.length > 0 then
        ["WHERE " ++ joinSep " AND " (query.Wheres.map qmarkWhereFragment)] else [])
  ++ (if query.Orders.length > 0 then
        ["ORDER BY " ++ joinSep ", " (query.Orders.map orderFragment)] else [])
  ++ (match query.LimitVal with | some n => ["LIMIT " ++ Int.repr n] | none => [])
  ++ (match query.OffsetVal with | some n => ["OFFSET " ++ Int.repr n] | none => [])

/-- Arguments bound by the '?'-placeholder compilers: every non-IN clause
binds its value, in clause order; IN clauses bind nothing. -/
def qmarkArgs (query : Query) : List Value :=
  (query.Wheres.filter (fun w => w.Operator != "IN")).map (fun w => w.Value)

/-- SQLiteDriver.BuildQuery from drivers/sqlite.go. -/
def SQLiteDriver.BuildQuery (query : Query) : String × List Value :=
  (joinSep " " (qmarkParts query), qmarkArgs query)

/-- MySQLDriver.BuildQuery from drivers/mysql.go (body identical to the
sqlite compiler). -/
def MySQLDriver.BuildQuery (query : Query) : String × List Value :=
  (joinSep " " (qmarkParts query), qmarkArgs query)

/-- QueryExecutor.buildSelectQueryFromQuery (body identical to the sqlite
compiler). -/
def QueryExecutor.buildSelectQueryFromQuery (q : Query) : String × List Value :=
  (joinSep " " (qmarkParts q), qmarkArgs q)

/-- The postgres where-loop: walks the clauses threading argIndex, which
is incremented only when an argument is bound (never for IN). -/
def pgWhereLoop : List WhereClause → Nat → List String × List Value
  | [], _ => ([], [])
  | w :: rest, argIndex =>
    let operator := if w.Not then "NOT " ++ w.Operator else w.Operator
    if w.Operator = "IN" then
      let r := pgWhereLoop rest argIndex
      ((w.Field ++ " " ++ operator ++ " " ++ goFormatValue w.Value) :: r.1, r.2)
    else
      let r := pgWhereLoop rest (argIndex + 1)
      ((w.Field ++ " " ++ operator ++ " $" ++ Nat.repr argIndex) :: r.1, w.Value :: r.2)

/-- The parts list assembled by the postgres compiler. -/
def pgParts (query : Query) : List String :=
  ["SELECT " ++ joinSep ", " query.Fields ++ " FROM " ++ query.Table]
  ++ (if query.Wheres.length > 0 then
        ["WHERE " ++ joinSep " AND " (pgWhereLoop query.Wheres 1).1] else [])
  ++ (if query.Orders.length > 0 then
        ["ORDER BY " ++ joinSep ", " (query.Orders.map orderFragment)] else [])
  ++ (match query.LimitVal with | some n => ["LIMIT " ++ Int.repr n] | none => [])
  ++ (match query.OffsetVal with | some n => ["OFFSET " ++ Int.repr n] | none => [])

/-- PostgresDriver.BuildQuery from the postgres driver. -/
def PostgresDriver.BuildQuery (query : Query) : String × List Value :=
  (joinSep " " (pgParts query), (pgWhereLoop query.Wheres 1).2)

/-- QueryExecutor.Count rewrites the builder's query: COUNT(*) projection,
the same where-clauses, no ordering, no limit, no offset. -/
def QueryExecutor.countQuery (q : Query) : Query :=
  { Table := q.Table, Fields := ["COUNT(*)"], Wheres := q.Wheres,
    Orders := [], LimitVal := none, OffsetVal := none, Includes := [] }

/-- QueryExecutor.Exists: from the (count, error) pair returned by Count it
returns (count > 0, same error). -/
def QueryExecutor.ExistsOfCount (r : Int × Option String) : Bool × Option String :=
  (decide (r.1 > 0), r.2)

/-! ## Schema IR (core/types.go) -/

/-- core.FieldSchema. -/
structure FieldSchema where
  Name : String
  Typ : String
  Optional : Bool
  Unique : Bool
  Primary : Bool
  AutoGen : Bool
  Default : Option DefaultVal
  DatabaseType : String
deriving DecidableEq, Repr

/-- core.Relation. -/
structure Relation where
  Name : String
  Typ : String
  Model : String
  Fields : List String
  References : List String
deriving DecidableEq, Repr

/-- core.ModelSchema. -/
structure ModelSchema where
  Name : String
  TableName : String
  Fields : List FieldSchema
  Relations : List Relation
deriving DecidableEq, Repr

/-- core.Schema. -/
structure Schema where
  Models : List ModelSchema
deriving DecidableEq, Repr

instance {α β : Type} [DecidableEq α] [DecidableEq β] : DecidableEq (Except α β) := fun x y =>
  match x, y with
  | .ok a, .ok b =>
    match decEq a b with
    | isTrue h => isTrue (h ▸ rfl)
    | isFalse h => isFalse (fun he => h (Except.ok.inj he))
  | .error a, .error b =>
    match decEq a b with
    | isTrue h => isTrue (h ▸ rfl)
    | isFalse h => isFalse (fun he => h (Except.error.inj he))
  | .ok _, .error _ => isFalse (fun he => Except.noConfusion he)
  | .error _, .ok _ => isFalse (fun he => Except.noConfusion he)

/-! ## DDL generators (buildColumnDefinition / CreateTable per dialect) -/

/-- PostgresDriver.buildColumnDefinition. -/
def PostgresDriver.buildColumnDefinition (field : FieldSchema) : String :=
  let parts := [field.Name]
  let sqlType := GetSQLType field.Typ "postgres"
  let sqlType := if field.Primary && field.AutoGen then "SERIAL" else sqlType
  let parts := parts ++ [sqlType]
  let parts := if field.Primary then parts ++ ["PRIMARY KEY"] else parts
  let parts := if field.Unique && !field.Primary then parts ++ ["UNIQUE"] else parts
  let parts := if !field.Optional && !field.Primary then parts ++ ["NOT NULL"] else parts
  let parts :=
    match field.Default with
    | none => parts
    | some (.str v) =>
      if v = "CURRENT_TIMESTAMP" then parts ++ ["DEFAULT CURRENT_TIMESTAMP"]
      else parts ++ ["DEFAULT '" ++ v ++ "'"]
    | some (.bool v) => parts ++ ["DEFAULT " ++ (if v then "true" else "false")]
    | some (.int n) => parts ++ ["DEFAULT " ++ Int.repr n]
  joinSep " " parts

/-- MySQLDriver.buildColumnDefinition. -/
def MySQLDriver.buildColumnDefinition (field : FieldSchema) : String :=
  let parts := [field.Name]
  let sqlType := GetSQLType field.Typ "mysql"
  let sqlType := if field.Primary && field.AutoGen then "INT AUTO_INCREMENT" else sqlType
  let parts := parts ++ [sqlType]
  let parts := if field.Primary then parts ++ ["PRIMARY KEY"] else parts
  let parts := if field.Unique && !field.Primary then parts ++ ["UNIQUE"] else parts
  let parts := if !field.Optional && !field.Primary then parts ++ ["NOT NULL"] else parts
  let parts :=
    match field.Default with
    | none => parts
    | some (.str v) =>
      if v = "CURRENT_TIMESTAMP" then parts ++ ["DEFAULT CURRENT_TIMESTAMP"]
      else parts ++ ["DEFAULT '" ++ v ++ "'"]
    | some (.bool v) => parts ++ ["DEFAULT " ++ (if v then "true" else "false")]
    | some (.int n) => parts ++ ["DEFAULT " ++ Int.repr n]
  joinSep " " parts

/-- SQLiteDriver.buildColumnDefinition. -/
def SQLiteDriver.buildColumnDefinition (field : FieldSchema) : String :=
  let parts := [field.Name]
  let sqlType := GetSQLType field.Typ "sqlite"
  let sqlType := if field.Primary && field.AutoGen then "INTEGER" else sqlType
  let parts := parts ++ [sqlType]
  let parts :=
    if field.Primary then
      parts ++ ["PRIMARY KEY"] ++ (if field.AutoGen then ["AUTOINCREMENT"] else [])
    else parts
  let parts := if field.Unique && !field.Primary then parts ++ ["UNIQUE"] else parts
  let parts := if !field.Optional && !field.Primary then parts ++ ["NOT NULL"] else parts
  let parts :=
    match field.Default with
    | none => parts
    | some (.str v) =>
      if v = "CURRENT_TIMESTAMP" then parts ++ ["DEFAULT CURRENT_TIMESTAMP"]
      else parts ++ ["DEFAULT '" ++ v ++ "'"]
    | some (.bool v) => parts ++ [if v then "DEFAULT 1" else "DEFAULT 0"]
    | some (.int n) => parts ++ ["DEFAULT " ++ Int.repr n]
  joinSep " " parts

/-- PostgresDriver.CreateTable. -/
def PostgresDriver.CreateTable (model : ModelSchema) : String :=
  "CREATE TABLE IF NOT EXISTS " ++ model.TableName ++ " (\n  "
    ++ joinSep ",\n  " (model.Fields.map PostgresDriver.buildColumnDefinition) ++ "\n)"

/-- MySQLDriver.CreateTable (appends the engine/charset trailer). -/
def MySQLDriver.CreateTable (model : ModelSchema) : String :=
  "CREATE TABLE IF NOT EXISTS " ++ model.TableName ++ " (\n  "
    ++ joinSep ",\n  " (model.Fields.map MySQLDriver.buildColumnDefinition)
    ++ "\n) ENGINE=InnoDB DEFAULT CHARSET=utf8mb4"

/-- SQLiteDriver.CreateTable. -/
def SQLiteDriver.CreateTable (model : ModelSchema) : String :=
  "CREATE TABLE IF NOT EXISTS " ++ model.TableName ++ " (\n  "
    ++ joinSep ",\n  " (model.Fields.map SQLiteDriver.buildColumnDefinition) ++ "\n)"

/-! ## Schema parser (gen/parser.go) -/

/-- A regex word character (the \w class, ASCII). -/
def wordChar (c : Char) : Bool := c.isAlphanum || c = '_'

/-- All matches of the attribute regex: an at-sign, a nonempty run of word
characters, then optionally a parenthesized argument running to the first
closing parenthesis. Returns (name, argument) pairs; a missing argument
group yields the empty string (Go's unmatched-submatch convention). -/
def findAttrsCore : Nat → List Char → List (String × String)
  | 0, _ => []
  | _, [] => []
  | fuel + 1, c :: rest =>
    if c = '@' then
      let name := rest.takeWhile wordChar
      if name.length = 0 then findAttrsCore fuel rest
      else
        match rest.drop name.length with
        | '(' :: r2 =>
          let arg := r2.takeWhile (fun ch => ch ≠ ')')
          if r2.drop arg.length = [] then
            (name.asString, "") :: findAttrsCore fuel (rest.drop name.length)
          else
            (name.asString, arg.asString) :: findAttrsCore fuel (r2.drop (arg.length + 1))
        | _ => (name.asString, "") :: findAttrsCore fuel (rest.drop name.length)
    else findAttrsCore fuel rest

/-- The regex scan entry point; every recursive step of the core consumes
at least one character, so the character count bounds the steps. -/
def findAttrs (l : List Char) : List (String × String) := findAttrsCore l.length l

/-- strings.Trim with the quote cutset used by parseDefaultValue. -/
def goTrimQuotes (s : String) : String :=
  let cut := fun c => c = '"' || c = '\''
  (((s.data.dropWhile cut).reverse.dropWhile cut).reverse).asString

/-- Parser.parseDefaultValue. The Go source's final branch tests whether
the value contains a dot but returns the same value either way, so both
arms collapse to the passthrough string. -/
def parseDefaultValue (value : String) : DefaultVal :=
  let value := goTrimQuotes value
  if value = "now()" then .str "CURRENT_TIMESTAMP"
  else if value = "true" then .bool true
  else if value = "false" then .bool false
  else .str value

/-- One step of Parser.parseAttributes: apply a recognized annotation to
the field; unknown annotations are ignored. -/
def applyAttr (field : FieldSchema) (attr : String × String) : FieldSchema :=
  if attr.1 = "id" then { field with Primary := true }
  else if attr.1 = "auto" then { field with AutoGen := true }
  else if attr.1 = "unique" then { field with Unique := true }
  else if attr.1 = "default" then { field with Default := some (parseDefaultValue attr.2) }
  else if attr.1 = "updatedAt" then { field with Typ := "DateTime", Default := some (.str "now()") }
  else field

/-- Parser.parseAttributes. -/
def parseAttributes (attributeStr : String) (field : FieldSchema) : FieldSchema :=
  (findAttrs attributeStr.data).foldl applyAttr field

/-- Matches `,` whitespace `label` whitespace `[` content `]` at the head
of the character list (one optional group of the relation regex). -/
def bracketGroup (label : String) (l : List Char) : Option (String × List Char) :=
  match l with
  | ',' :: r1 =>
    let r2 := r1.dropWhile Char.isWhitespace
    if label.data.isPrefixOf r2 then
      let r3 := (r2.drop label.data.length).dropWhile Char.isWhitespace
      match r3 with
      | '[' :: r5 =>
        let content := r5.takeWhile (fun c => c ≠ ']')
        match r5.drop content.length with
        | ']' :: r7 => some (content.asString, r7)
        | _ => none
      | _ => none
    else none
  | _ => none

/-- Does the remainder start with the closing parenthesis of the relation
annotation? -/
def isClose : List Char → Bool
  | ')' :: _ => true
  | _ => false

/-- The tail of the relation regex after the quoted label: two optional
greedy groups (fields, references) then a closing parenthesis, tried in
backtracking order. Returns (fields text, references text). -/
def relAttrTail (r : List Char) : Option (String × String) :=
  (do
    let (f, r4) ← bracketGroup "fields:" r
    let (g, r5) ← bracketGroup "references:" r4
    if isClose r5 then pure (f, g) else none) <|>
  (do
    let (f, r4) ← bracketGroup "fields:" r
    if isClose r4 then pure (f, "") else none) <|>
  (do
    let (g, r5) ← bracketGroup "references:" r
    if isClose r5 then pure ("", g) else none) <|>
  (if isClose r then pure ("", "") else none)

/-- Attempt the whole relation-annotation regex anchored at the head of the
list: the literal opener, a quoted label, then the optional groups and the
closing parenthesis. Returns (label, fields text, references text). -/
def relAttrAt (l : List Char) : Option (String × String × String) :=
  let pre := ("@relation(\"").data
  if pre.isPrefixOf l then
    let r1 := l.drop pre.length
    let label := r1.takeWhile (fun c => c ≠ '"')
    match r1.drop label.length with
    | '"' :: r3 =>
      match relAttrTail r3 with
      | some (f, g) => some (label.asString, f, g)
      | none => none
    | _ => none
  else none

/-- First (leftmost) match of the relation-annotation regex in the text. -/
def findRelAttr : List Char → Option (String × String × String)
  | [] => none
  | c :: rest =>
    match relAttrAt (c :: rest) with
    | some m => some m
    | none => findRelAttr rest

/-- Parser.parseRelationAttributes. -/
def parseRelationAttributes (attributeStr : String) (relation : Relation) : Relation :=
  let relation :=
    match findRelAttr attributeStr.data with
    | none => relation
    | some (nm, f, g) =>
      let relation := { relation with Name := nm }
      let relation :=
        if f ≠ "" then { relation with Fields := splitComma (removeSpaces f) }
        else relation
      if g ≠ "" then { relation with References := splitComma (removeSpaces g) }
      else relation
  if relation.Fields.length > 0 && relation.References.length > 0 then
    { relation with Typ := "belongsTo" }
  else relation

/-- Parser.parseRelation. -/
def parseRelation (line : String) (model : ModelSchema) : Except String ModelSchema :=
  match goFields line with
  | fieldName :: fieldTypeRaw :: restParts =>
    let fieldType := trimSuf fieldTypeRaw "[]"
    let relation : Relation :=
      { Name := fieldName, Typ := "hasMany", Model := fieldType, Fields := [], References := [] }
    let attributeStr := joinSep " " restParts
    let relation := parseRelationAttributes attributeStr relation
    .ok { model with Relations := model.Relations ++ [relation] }
  | _ => .error "invalid relation definition"

/-- Parser.parseField: fewer than two whitespace tokens is the structural
error; a list-marker suffix on the type reclassifies the line as a
relation; otherwise annotations are folded into the field. -/
def parseField (line : String) (model : ModelSchema) : Except String ModelSchema :=
  match goFields line with
  | fieldName :: fieldType :: restParts =>
    let field : FieldSchema :=
      { Name := fieldName, Typ := trimSuf fieldType "?", Optional := hasSuf fieldType "?",
        Unique := false, Primary := false, AutoGen := false, Default := none, DatabaseType := "" }
    if hasSuf fieldType "[]" then parseRelation line model
    else
      let attributeStr := joinSep " " restParts
      let field := parseAttributes attributeStr field
      .ok { model with Fields := model.Fields ++ [field] }
  | _ => .error "invalid field definition"

/-- The error text ParseFile wraps around a malformed field line. -/
def fieldErrMsg (line : String) : String :=
  "error parsing field '" ++ line ++ "': invalid field definition"

/-- The line-scanning loop of Parser.ParseFile: the Bool mirrors the Go
inModel flag, the Option the currentModel pointer, the list the models
committed so far. -/
def parseLinesAux : List String → Bool → Option ModelSchema → List ModelSchema →
    Except String (List ModelSchema)
  | [], _, currentModel, acc =>
    match currentModel with
    | some m => .ok (acc ++ [m])
    | none => .ok acc
  | rawLine :: rest, inModel, currentModel, acc =>
    let line := goTrim rawLine
    if line = "" || hasPre line "//" then parseLinesAux rest inModel currentModel acc
    else if hasPre line "model " then
      let acc := match currentModel with | some m => acc ++ [m] | none => acc
      let modelName := goTrim (trimSuf (trimPre line "model ") "\x7b")
      parseLinesAux rest true
        (some { Name := modelName, TableName := GetTableName modelName,
                Fields := [], Relations := [] }) acc
    else if line = "\x7d" && inModel then
      match currentModel with
      | some m => parseLinesAux rest false none (acc ++ [m])
      | none => parseLinesAux rest false none acc
    else if inModel then
      match currentModel with
      | some m =>
        match parseField line m with
        | .ok m2 => parseLinesAux rest inModel (some m2) acc
        | .error e => .error ("error parsing field '" ++ line ++ "': " ++ e)
      | none => parseLinesAux rest inModel currentModel acc
    else parseLinesAux rest inModel currentModel acc

/-- Parser.ParseFile, over the file's lines. -/
def ParseFile (lines : List String) : Except String Schema :=
  match parseLinesAux lines false none [] with
  | .ok ms => .ok { Models := ms }
  | .error e => .error e

/-- Spec-side characterization of the parse-failure condition: the first
non-blank, non-comment, non-delimiter line lying inside a model block that
splits into fewer than two whitespace tokens (trimmed form). -/
def firstMalformed : List String → Bool → Option String
  | [], _ => none
  | rawLine :: rest, inModel =>
    let line := goTrim rawLine
    if line = "" || hasPre line "//" then firstMalformed rest inModel
    else if hasPre line "model " then firstMalformed rest true
    else if line = "\x7d" && inModel then firstMalformed rest false
    else if inModel then
      if (goFields line).length < 2 then some line else firstMalformed rest true
    else firstMalformed rest false

/-- The abstract type tags the mapper recognizes (same key set in all
three dialect tables). -/
def recognizedTypeTags : List String :=
  ["int", "Int", "int64", "string", "String", "bool", "Boolean",
   "float64", "Float", "time.Time", "DateTime"]

/-- Spec-side pluralization: trailing y becomes ies; a trailing s, x, z,
ch or sh gets es appended; otherwise s is appended (modelled from the
spec's wording, to be compared with ToPlural from the source). -/
def pluralSpec (s : String) : String :=
  if hasSuf s "y" then (s.data.take (s.data.length - 1)).asString ++ "ies"
  else if hasSuf s "s" ∨ hasSuf s "x" ∨ hasSuf s "z" ∨ hasSuf s "ch" ∨ hasSuf s "sh" then
    s ++ "es"
  else s ++ "s"

/-- A field carrying a boolean default, as the parser would produce for a
declaration such as active Boolean with a true default. -/
def boolField : FieldSchema :=
  { Name := "active", Typ := "Boolean", Optional := false, Unique := false,
    Primary := false, AutoGen := false, Default := some (.bool true), DatabaseType := "" }

/-- The FieldSchema the parser produces for a declaration annotated with
the auto-update marker. -/
def updField : FieldSchema :=
  { Name := "updatedAt", Typ := "DateTime", Optional := false, Unique := false,
    Primary := false, AutoGen := false, Default := some (.str "now()"), DatabaseType := "" }

/-- The character does not occur in the string. -/
def charFree (c : Char) (s : String) : Prop := c ∉ s.data

instance (c : Char) (s : String) : Decidable (charFree c s) := by
  unfold charFree; infer_instance

/-- The character occurs in none of the query's textual components (table,
projection, where fields and operators, order fields and directions):
under this condition occurrences of the character in the compiled SQL can
only be placeholders. -/
def queryTextFree (c : Char) (q : Query) : Prop :=
  charFree c q.Table
  ∧ (∀ f ∈ q.Fields, charFree c f)
  ∧ (∀ w ∈ q.Wheres, charFree c w.Field ∧ charFree c w.Operator)
  ∧ (∀ o ∈ q.Orders, charFree c o.Field ∧ charFree c o.Direction)

instance (c : Char) (q : Query) : Decidable (queryTextFree c q) := by
  unfold queryTextFree; infer_instance

/-- A concrete single-filter query used by several witnesses. -/
def ageQuery : Query :=
  QueryExecutor.Where (NewQueryExecutor "users") "age" ">" (.int 18)

/-- The where-clause WhereIn appends: operator IN, a pre-rendered
placeholder group as the value, no negation. -/
def inClause (f : String) (vs : List Value) : WhereClause :=
  { Field := f, Operator := "IN",
    Value := .str ("(" ++ joinSep "," (vs.map fun _ => "?") ++ ")"), Not := false }

/-- The query WhereIn with an empty element list produces on a fresh users
builder. -/
def emptyInQuery : Query := QueryExecutor.WhereIn (NewQueryExecutor "users") "id" []

/-- The fresh ModelSchema a model-opening line initializes. -/
def newModelFor (modelName : String) : ModelSchema :=
  { Name := modelName, TableName := GetTableName modelName, Fields := [], Relations := [] }

/-! ## General lemmas about the string toolbox -/

lemma countChar_append (a b : String) (c : Char) :
    countChar (a ++ b) c = countChar a c + countChar b c := by
  simp [countChar, String.data_append]

lemma countChar_joinSep (sep : String) (c : Char) (h : countChar sep c = 0) :
    ∀ xs : List String, countChar (joinSep sep xs) c = (xs.map (fun s => countChar s c)).sum
  | [] => by simp [joinSep, countChar]
  | [x] => by simp [joinSep]
  | x :: y :: t => by
    have ih := countChar_joinSep sep c h (y :: t)
    simp only [joinSep, countChar_append, h, ih, List.map_cons, List.sum_cons]
    omega

lemma sum_map_ones {α : Type} (l : List α) (f : α → Nat) (h : ∀ x ∈ l, f x = 1) :
    (l.map f).sum = l.length := by
  induction l with
  | nil => simp
  | cons a t ih =>
    simp only [List.map_cons, List.sum_cons, List.length_cons, h a (by simp)]
    rw [ih (fun x hx => h x (by simp [hx]))]
    omega

lemma digitChar_isDigit (n : Nat) (h : n < 10) : (Nat.digitChar n).isDigit = true := by
  interval_cases n <;> decide

lemma toDigitsCore_digits (fuel : Nat) : ∀ (n : Nat) (ds : List Char),
    (∀ c ∈ ds, c.isDigit = true) → ∀ c ∈ Nat.toDigitsCore 10 fuel n ds, c.isDigit = true := by
  induction fuel with
  | zero => intro n ds h c hc; simpa [Nat.toDigitsCore] using h c (by simpa [Nat.toDigitsCore] using hc)
  | succ fuel ih =>
    intro n ds h c hc
    have hd : (Nat.digitChar (n % 10)).isDigit = true :=
      digitChar_isDigit _ (Nat.mod_lt _ (by omega))
    have hcons : ∀ x ∈ Nat.digitChar (n % 10) :: ds, x.isDigit = true := by
      intro x hx
      rcases List.mem_cons.mp hx with h1 | h2
      · subst h1; exact hd
      · exact h x h2
    simp only [Nat.toDigitsCore] at hc
    split at hc
    · exact hcons c hc
    · exact ih _ _ hcons c hc

lemma natRepr_digits (n : Nat) : ∀ c ∈ (Nat.repr n).data, c.isDigit = true := by
  intro c hc
  have : (Nat.repr n).data = Nat.toDigitsCore 10 (n + 1) n [] := rfl
  rw [this] at hc
  exact toDigitsCore_digits (n + 1) n [] (by simp) c hc

lemma countChar_natRepr (n : Nat) (c : Char) (h : c.isDigit = false) :
    countChar (Nat.repr n) c = 0 := by
  simp only [countChar]
  rw [List.count_eq_zero]
  intro hmem
  have := natRepr_digits n c hmem
  rw [h] at this
  exact Bool.false_ne_true this

lemma countChar_intRepr (n : Int) (c : Char) (h : c.isDigit = false) (h2 : c ≠ '-') :
    countChar (Int.repr n) c = 0 := by
  cases n with
  | ofNat m => exact countChar_natRepr m c h
  | negSucc m =>
    have hm : countChar "-" c = 0 := by
      simp only [countChar]
      rw [List.count_eq_zero]
      intro hmem
      simp only [List.mem_singleton] at hmem
      exact h2 hmem
    show countChar ("-" ++ Nat.repr (m + 1)) c = 0
    rw [countChar_append, countChar_natRepr _ c h, hm]

lemma trimSuf_append (t suf : String) : trimSuf (t ++ suf) suf = t := by
  unfold trimSuf hasSuf
  rw [if_pos]
  · rw [String.data_append]
    simp only [List.length_append, Nat.add_sub_cancel]
    rw [List.take_left t.data suf.data]
    rfl
  · exact List.isSuffixOf_iff_suffix.mpr (List.suffix_append _ _)

lemma joinSep_append_single (sep : String) (d : String) :
    ∀ (ps : List String), ps ≠ [] →
      joinSep sep (ps ++ [d]) = joinSep sep ps ++ sep ++ d
  | [], h => absurd rfl h
  | [x], _ => by simp [joinSep]
  | x :: y :: t, _ => by
    have ih := joinSep_append_single sep d (y :: t) (by simp)
    have e1 : (x :: y :: t) ++ [d] = x :: ((y :: t) ++ [d]) := rfl
    have e2 : joinSep sep (x :: ((y :: t) ++ [d]))
        = x ++ sep ++ joinSep sep ((y :: t) ++ [d]) := rfl
    have e3 : joinSep sep (x :: y :: t) = x ++ sep ++ joinSep sep (y :: t) := rfl
    rw [e1, e2, ih, e3]
    simp [String.append_assoc]

/-! ## Claim theorems -/

/-- C3: compiling the single-filter query (table users, default projection,
filter age > 18) yields exactly the claimed SQL and argument list under the
sqlite and postgres dialects. -/
theorem c3_scenario_age_filter :
    SQLiteDriver.BuildQuery (QueryExecutor.Where (NewQueryExecutor "users") "age" ">" (.int 18))
      = ("SELECT * FROM users WHERE age > ?", [.int 18])
  ∧ PostgresDriver.BuildQuery (QueryExecutor.Where (NewQueryExecutor "users") "age" ">" (.int 18))
      = ("SELECT * FROM users WHERE age > $1", [.int 18]) := by
  constructor <;> decide

/-- C2 counterexample: the abstract tag Int64 is not in the (case-sensitive)
lookup tables — only the lowercase int64 is — so it falls to the TEXT
fallback in every dialect, contradicting the claimed row
Int64 maps to (BIGINT, BIGINT, INTEGER). -/
theorem c2_counterexample :
    GetSQLType "Int64" "postgres" = "TEXT"
  ∧ GetSQLType "Int64" "mysql" = "TEXT"
  ∧ GetSQLType "Int64" "sqlite" = "TEXT"
  ∧ GetSQLType "Int64" "postgres" ≠ "BIGINT"
  ∧ GetSQLType "Int64" "mysql" ≠ "BIGINT"
  ∧ GetSQLType "Int64" "sqlite" ≠ "INTEGER" := by
  refine ⟨rfl, rfl, rfl, ?_, ?_, ?_⟩ <;> decide

/-- C2 (amended): the mapper is total; a trailing optional marker is
stripped before lookup; the claimed table holds for Int, String, Boolean,
Float and DateTime, but the row for Int64 is wrong: only the lowercase Go
tag int64 maps to (BIGINT, BIGINT, INTEGER), while Int64 itself is
unrecognized and falls back to TEXT in each dialect, as does every other
unrecognized tag. -/
theorem c2_type_mapper_amended :
    (GetSQLType "Int" "postgres" = "INTEGER" ∧ GetSQLType "Int" "mysql" = "INT"
      ∧ GetSQLType "Int" "sqlite" = "INTEGER")
  ∧ (GetSQLType "int64" "postgres" = "BIGINT" ∧ GetSQLType "int64" "mysql" = "BIGINT"
      ∧ GetSQLType "int64" "sqlite" = "INTEGER")
  ∧ (GetSQLType "Int64" "postgres" = "TEXT" ∧ GetSQLType "Int64" "mysql" = "TEXT"
      ∧ GetSQLType "Int64" "sqlite" = "TEXT")
  ∧ (GetSQLType "String" "postgres" = "VARCHAR(255)" ∧ GetSQLType "String" "mysql" = "VARCHAR(255)"
      ∧ GetSQLType "String" "sqlite" = "TEXT")
  ∧ (GetSQLType "Boolean" "postgres" = "BOOLEAN" ∧ GetSQLType "Boolean" "mysql" = "BOOLEAN"
      ∧ GetSQLType "Boolean" "sqlite" = "INTEGER")
  ∧ (GetSQLType "Float" "postgres" = "DOUBLE PRECISION" ∧ GetSQLType "Float" "mysql" = "DOUBLE"
      ∧ GetSQLType "Float" "sqlite" = "REAL")
  ∧ (GetSQLType "DateTime" "postgres" = "TIMESTAMP" ∧ GetSQLType "DateTime" "mysql" = "TIMESTAMP"
      ∧ GetSQLType "DateTime" "sqlite" = "DATETIME")
  ∧ (∀ t : String,
      GetSQLType (t ++ "?") "postgres" = getPostgresType t
      ∧ GetSQLType (t ++ "?") "mysql" = getMySQLType t
      ∧ GetSQLType (t ++ "?") "sqlite" = getSQLiteType t)
  ∧ (∀ t : String, t ∉ recognizedTypeTags →
      getPostgresType t = "TEXT" ∧ getMySQLType t = "TEXT" ∧ getSQLiteType t = "TEXT") := by
  refine ⟨by decide, by decide, by decide, by decide, by decide, by decide, by decide, ?_, ?_⟩
  · intro t
    refine ⟨?_, ?_, ?_⟩ <;>
      simp [GetSQLType, trimSuf_append]
  · intro t ht
    simp only [recognizedTypeTags, List.mem_cons, List.mem_singleton] at ht
    push_neg at ht
    obtain ⟨h1, h2, h3, h4, h5, h6, h7, h8, h9, h10, h11⟩ := ht
    refine ⟨?_, ?_, ?_⟩ <;>
      simp [getPostgresType, getMySQLType, getSQLiteType,
        h1, h2, h3, h4, h5, h6, h7, h8, h9, h10, h11]

/-- C2 witness: the unrecognized-tag conjunct of the amended theorem
applied at the concrete tag Int64. -/
theorem c2_witness :
    ("Int64" : String) ∉ recognizedTypeTags ∧ getPostgresType "Int64" = "TEXT" :=
  ⟨by decide, (c2_type_mapper_amended.2.2.2.2.2.2.2.2 "Int64" (by decide)).1⟩

/-- C9: the derived table name is the snake_case form of the model name
pluralized exactly by the spec's rules; in particular User yields users
and Category yields categories. -/
theorem c9_table_name :
    (∀ name : String, GetTableName name = pluralSpec (ToSnakeCase name))
  ∧ GetTableName "User" = "users"
  ∧ GetTableName "Category" = "categories" :=
  ⟨fun _ => rfl, by decide, by decide⟩

/-- C6: a negated non-IN clause renders as field NOT operator placeholder
in the sqlite compiler, and the where-not scenario (status = archived,
negated) compiles to exactly status NOT = ? with the single bound argument
archived. -/
theorem c6_where_not :
    (∀ (field operator : String) (value : Value), operator ≠ "IN" →
      qmarkWhereFragment { Field := field, Operator := operator, Value := value, Not := true }
        = field ++ " NOT " ++ operator ++ " ?")
  ∧ SQLiteDriver.BuildQuery
      (QueryExecutor.WhereNot (NewQueryExecutor "users") "status" "=" (.str "archived"))
      = ("SELECT * FROM users WHERE status NOT = ?", [.str "archived"]) := by
  constructor
  · intro f op v hop
    simp only [qmarkWhereFragment, if_true, if_neg hop]
    apply String.ext
    simp [String.data_append, List.append_assoc]
  · decide

/-- C6 witness: the general fragment shape applied at the scenario's
concrete clause. -/
theorem c6_witness :
    ("=" : String) ≠ "IN"
  ∧ qmarkWhereFragment { Field := "status", Operator := "=", Value := .str "archived", Not := true }
      = "status" ++ " NOT " ++ "=" ++ " ?" :=
  ⟨by decide, c6_where_not.1 "status" "=" (.str "archived") (by decide)⟩

/-- C7: the count rewrite projects COUNT(*) over the builder's table,
keeps the where-clauses and their bound arguments unchanged, and emits no
ORDER BY, LIMIT or OFFSET part whatever the builder accumulated; exists is
true exactly when the count is positive and passes the count error
through. -/
theorem c7_count_exists (q : Query) :
    QueryExecutor.buildSelectQueryFromQuery (QueryExecutor.countQuery q)
      = ("SELECT COUNT(*) FROM " ++ q.Table ++
          (if q.Wheres.length > 0 then
            " WHERE " ++ joinSep " AND " (q.Wheres.map qmarkWhereFragment) else ""),
         qmarkArgs q)
  ∧ (QueryExecutor.buildSelectQueryFromQuery (QueryExecutor.countQuery q)).2
      = (QueryExecutor.buildSelectQueryFromQuery q).2
  ∧ ∀ (c : Int) (e : Option String),
      ((QueryExecutor.ExistsOfCount (c, e)).1 = true ↔ c > 0)
      ∧ (QueryExecutor.ExistsOfCount (c, e)).2 = e := by
  refine ⟨?_, rfl, ?_⟩
  · show (joinSep " " (qmarkParts (QueryExecutor.countQuery q)),
        qmarkArgs (QueryExecutor.countQuery q)) = _
    have hargs : qmarkArgs (QueryExecutor.countQuery q) = qmarkArgs q := rfl
    have hsel : ("SELECT " : String) ++ "COUNT(*)" ++ " FROM "
        = "SELECT COUNT(*) FROM " := rfl
    cases hw : q.Wheres with
    | nil =>
      have hparts : qmarkParts (QueryExecutor.countQuery q)
          = ["SELECT " ++ joinSep ", " ["COUNT(*)"] ++ " FROM " ++ q.Table] := by
        simp [qmarkParts, QueryExecutor.countQuery, hw]
      rw [hparts, hargs]
      simp only [joinSep, hw, List.length_nil, gt_iff_lt, Nat.lt_irrefl, if_false]
      rw [hsel, String.append_empty]
    | cons w ws =>
      have hparts : qmarkParts (QueryExecutor.countQuery q)
          = ["SELECT " ++ joinSep ", " ["COUNT(*)"] ++ " FROM " ++ q.Table,
             "WHERE " ++ joinSep " AND " ((w :: ws).map qmarkWhereFragment)] := by
        simp [qmarkParts, QueryExecutor.countQuery, hw]
      rw [hparts, hargs]
      simp only [joinSep, hw, List.length_cons, gt_iff_lt, Nat.succ_pos, if_true]
      rw [hsel]
      refine congrArg (fun s => (s, qmarkArgs q)) ?_
      rw [String.append_assoc]
      refine congrArg (fun s => "SELECT COUNT(*) FROM " ++ q.Table ++ s) ?_
      rw [← String.append_assoc]
      rfl
  · intro c e
    exact ⟨by simp [QueryExecutor.ExistsOfCount], rfl⟩

/-- C5 counterexample: the postgres and mysql column builders render a
boolean default with Go %t, producing lowercase true, not the claimed
uppercase TRUE; sqlite does render 1. -/
theorem c5_counterexample :
    PostgresDriver.buildColumnDefinition boolField = "active BOOLEAN NOT NULL DEFAULT true"
  ∧ MySQLDriver.buildColumnDefinition boolField = "active BOOLEAN NOT NULL DEFAULT true"
  ∧ SQLiteDriver.buildColumnDefinition boolField = "active INTEGER NOT NULL DEFAULT 1"
  ∧ ¬ (("DEFAULT TRUE").data <:+: (PostgresDriver.buildColumnDefinition boolField).data)
  ∧ ¬ (("DEFAULT TRUE").data <:+: (MySQLDriver.buildColumnDefinition boolField).data) := by
  decide

/-- C5 (amended): a boolean default appends a final DEFAULT clause whose
literal is lowercase true/false under postgres and mysql and 1/0 under
sqlite; the rest of the column definition is unchanged. -/
theorem c5_bool_default_literals (f : FieldSchema) (b : Bool)
    (hdef : f.Default = some (.bool b)) :
    PostgresDriver.buildColumnDefinition f
      = PostgresDriver.buildColumnDefinition { f with Default := none } ++ " "
        ++ ("DEFAULT " ++ (if b then "true" else "false"))
  ∧ MySQLDriver.buildColumnDefinition f
      = MySQLDriver.buildColumnDefinition { f with Default := none } ++ " "
        ++ ("DEFAULT " ++ (if b then "true" else "false"))
  ∧ SQLiteDriver.buildColumnDefinition f
      = SQLiteDriver.buildColumnDefinition { f with Default := none } ++ " "
        ++ (if b then "DEFAULT 1" else "DEFAULT 0") := by
  refine ⟨?_, ?_, ?_⟩ <;>
  · simp only [PostgresDriver.buildColumnDefinition, MySQLDriver.buildColumnDefinition,
      SQLiteDriver.buildColumnDefinition, hdef]
    refine joinSep_append_single _ _ _ ?_
    repeat' split
    all_goals simp

/-- C5 witness: the amended rendering applied at the concrete boolean
field. -/
theorem c5_witness :
    boolField.Default = some (.bool true)
  ∧ PostgresDriver.buildColumnDefinition boolField
      = PostgresDriver.buildColumnDefinition { boolField with Default := none } ++ " "
        ++ ("DEFAULT " ++ (if true then "true" else "false")) :=
  ⟨rfl, (c5_bool_default_literals boolField true rfl).1⟩

/-- C4 (code bug evidence): the parser does force the type of an
updatedAt-annotated field to DateTime, but sets its default to the raw
string now(), not the CURRENT_TIMESTAMP sentinel; every dialect's column
builder therefore renders the quoted literal DEFAULT 'now()' and the
generated column never contains DEFAULT CURRENT_TIMESTAMP. -/
theorem c4_updated_at_renders_now_literal :
    ParseFile ["model Post \x7b", "  updatedAt DateTime @updatedAt", "\x7d"]
      = .ok { Models := [{ Name := "Post", TableName := "posts",
                           Fields := [updField], Relations := [] }] }
  ∧ updField.Typ = "DateTime"
  ∧ updField.Default = some (.str "now()")
  ∧ SQLiteDriver.buildColumnDefinition updField
      = "updatedAt DATETIME NOT NULL DEFAULT 'now()'"
  ∧ PostgresDriver.buildColumnDefinition updField
      = "updatedAt TIMESTAMP NOT NULL DEFAULT 'now()'"
  ∧ MySQLDriver.buildColumnDefinition updField
      = "updatedAt TIMESTAMP NOT NULL DEFAULT 'now()'"
  ∧ ¬ (("DEFAULT CURRENT_TIMESTAMP").data <:+:
      (SQLiteDriver.buildColumnDefinition updField).data) := by
  decide

/-! ## Placeholder counting (claims C1 and C10) -/

lemma countChar_eq_zero {c : Char} {s : String} (h : charFree c s) : countChar s c = 0 :=
  List.count_eq_zero.mpr h

lemma countChar_select (q : Query) (c : Char)
    (hlit : countChar "SELECT " c = 0 ∧ countChar " FROM " c = 0 ∧ countChar ", " c = 0)
    (ht : charFree c q.Table) (hf : ∀ f ∈ q.Fields, charFree c f) :
    countChar ("SELECT " ++ joinSep ", " q.Fields ++ " FROM " ++ q.Table) c = 0 := by
  rw [countChar_append, countChar_append, countChar_append,
    countChar_joinSep ", " c hlit.2.2, hlit.1, hlit.2.1, countChar_eq_zero ht]
  have : ∀ x ∈ q.Fields.map (fun s => countChar s c), x = 0 := by
    intro x hx
    obtain ⟨f, hfm, hfe⟩ := List.mem_map.mp hx
    rw [← hfe]
    exact countChar_eq_zero (hf f hfm)
  rw [List.sum_eq_zero this]
  omega

lemma countChar_orders (os : List OrderClause) (c : Char)
    (hlit : countChar "ORDER BY " c = 0 ∧ countChar ", " c = 0 ∧ countChar " " c = 0)
    (h : ∀ o ∈ os, charFree c o.Field ∧ charFree c o.Direction) :
    countChar ("ORDER BY " ++ joinSep ", " (os.map orderFragment)) c = 0 := by
  rw [countChar_append, countChar_joinSep ", " c hlit.2.1, hlit.1]
  have : ∀ x ∈ (os.map orderFragment).map (fun s => countChar s c), x = 0 := by
    intro x hx
    obtain ⟨s, hsm, hse⟩ := List.mem_map.mp hx
    obtain ⟨o, hom, hoe⟩ := List.mem_map.mp hsm
    rw [← hse, ← hoe]
    simp only [orderFragment, countChar_append]
    rw [countChar_eq_zero (h o hom).1, countChar_eq_zero (h o hom).2, hlit.2.2]
  rw [List.sum_eq_zero this]
  omega

lemma countChar_limit (n : Int) (pre : String) (c : Char)
    (hlit : countChar pre c = 0) (hd : c.isDigit = false) (hm : c ≠ '-') :
    countChar (pre ++ Int.repr n) c = 0 := by
  rw [countChar_append, hlit, countChar_intRepr n c hd hm]

lemma qmark_frag_count_one (w : WhereClause) (hIN : w.Operator ≠ "IN")
    (hf : charFree '?' w.Field) (ho : charFree '?' w.Operator) :
    countChar (qmarkWhereFragment w) '?' = 1 := by
  have hf0 := countChar_eq_zero hf
  have ho0 := countChar_eq_zero ho
  have l1 : countChar " " '?' = 0 := by decide
  have l2 : countChar "NOT " '?' = 0 := by decide
  have l3 : countChar " ?" '?' = 1 := by decide
  simp only [qmarkWhereFragment, if_neg hIN]
  cases hnot : w.Not <;>
    simp only [Bool.false_eq_true, if_false, if_true, countChar_append,
      hf0, ho0, l1, l2, l3]

lemma qmark_where_count (ws : List WhereClause)
    (hIN : ∀ w ∈ ws, w.Operator ≠ "IN")
    (hfo : ∀ w ∈ ws, charFree '?' w.Field ∧ charFree '?' w.Operator) :
    countChar ("WHERE " ++ joinSep " AND " (ws.map qmarkWhereFragment)) '?' = ws.length := by
  rw [countChar_append, countChar_joinSep " AND " '?' (by decide), List.map_map]
  have : ((ws.map fun w => countChar (qmarkWhereFragment w) '?')).sum = ws.length := by
    refine sum_map_ones ws _ ?_
    intro w hw
    exact qmark_frag_count_one w (hIN w hw) (hfo w hw).1 (hfo w hw).2
  have e : (fun s => countChar s '?') ∘ qmarkWhereFragment
      = fun w => countChar (qmarkWhereFragment w) '?' := rfl
  rw [e, this]
  have lw : countChar "WHERE " '?' = 0 := by decide
  omega

lemma qmark_args_all (q : Query) (hIN : ∀ w ∈ q.Wheres, w.Operator ≠ "IN") :
    qmarkArgs q = q.Wheres.map (fun w => w.Value) := by
  unfold qmarkArgs
  rw [List.filter_eq_self.mpr]
  intro w hw
  simpa using hIN w hw

lemma qmark_sql_count (q : Query)
    (hIN : ∀ w ∈ q.Wheres, w.Operator ≠ "IN")
    (hq : queryTextFree '?' q) :
    countChar (SQLiteDriver.BuildQuery q).1 '?' = q.Wheres.length := by
  obtain ⟨ht, hf, hw, ho⟩ := hq
  show countChar (joinSep " " (qmarkParts q)) '?' = _
  rw [countChar_joinSep " " '?' (by decide)]
  simp only [qmarkParts, List.map_append, List.sum_append]
  have h1 : countChar ("SELECT " ++ joinSep ", " q.Fields ++ " FROM " ++ q.Table) '?' = 0 :=
    countChar_select q '?' (by refine ⟨?_, ?_, ?_⟩ <;> decide) ht hf
  have h2 : ((if q.Wheres.length > 0 then
      ["WHERE " ++ joinSep " AND " (q.Wheres.map qmarkWhereFragment)] else []).map
        (fun s => countChar s '?')).sum = q.Wheres.length := by
    cases hws : q.Wheres with
    | nil => simp
    | cons w t =>
      rw [← hws]
      have hpos : q.Wheres.length > 0 := by rw [hws]; simp
      rw [if_pos hpos]
      simp only [List.map_cons, List.map_nil, List.sum_cons, List.sum_nil]
      rw [qmark_where_count q.Wheres hIN hw]
      omega
  have h3 : ((if q.Orders.length > 0 then
      ["ORDER BY " ++ joinSep ", " (q.Orders.map orderFragment)] else []).map
        (fun s => countChar s '?')).sum = 0 := by
    split
    · simp only [List.map_cons, List.map_nil, List.sum_cons, List.sum_nil]
      rw [countChar_orders q.Orders '?' (by refine ⟨?_, ?_, ?_⟩ <;> decide) ho]
      omega
    · simp
  have h4 : ((match q.LimitVal with
      | some n => ["LIMIT " ++ Int.repr n] | none => []).map
        (fun s => countChar s '?')).sum = 0 := by
    cases q.LimitVal with
    | none => simp
    | some n =>
      simp only [List.map_cons, List.map_nil, List.sum_cons, List.sum_nil]
      rw [countChar_limit n "LIMIT " '?' (by decide) (by decide) (by decide)]
      omega
  have h5 : ((match q.OffsetVal with
      | some n => ["OFFSET " ++ Int.repr n] | none => []).map
        (fun s => countChar s '?')).sum = 0 := by
    cases q.OffsetVal with
    | none => simp
    | some n =>
      simp only [List.map_cons, List.map_nil, List.sum_cons, List.sum_nil]
      rw [countChar_limit n "OFFSET " '?' (by decide) (by decide) (by decide)]
      omega
  simp only [List.map_cons, List.map_nil, List.sum_cons, List.sum_nil] at *
  omega

lemma pgWhereLoop_args : ∀ (ws : List WhereClause) (i : Nat),
    (∀ w ∈ ws, w.Operator ≠ "IN") → (pgWhereLoop ws i).2 = ws.map (fun w => w.Value)
  | [], _, _ => by simp [pgWhereLoop]
  | w :: t, i, h => by
    have ih := pgWhereLoop_args t (i + 1) (fun x hx => h x (by simp [hx]))
    simp only [pgWhereLoop, if_neg (h w (by simp)), List.map_cons]
    rw [ih]

lemma pgWhereLoop_frags : ∀ (ws : List WhereClause) (i : Nat),
    (∀ w ∈ ws, w.Operator ≠ "IN") →
    (pgWhereLoop ws i).1
      = (List.range' i ws.length).zipWith
          (fun k w => w.Field ++ " " ++ (if w.Not then "NOT " ++ w.Operator else w.Operator)
            ++ " $" ++ Nat.repr k) ws
  | [], i, _ => by simp [pgWhereLoop]
  | w :: t, i, h => by
    have ih := pgWhereLoop_frags t (i + 1) (fun x hx => h x (by simp [hx]))
    simp only [pgWhereLoop, if_neg (h w (by simp)), List.length_cons,
      List.range'_succ, List.zipWith_cons_cons]
    rw [ih]

lemma pg_frag_count_one (w : WhereClause) (k : Nat)
    (hf : charFree '$' w.Field) (ho : charFree '$' w.Operator) :
    countChar (w.Field ++ " " ++ (if w.Not then "NOT " ++ w.Operator else w.Operator)
      ++ " $" ++ Nat.repr k) '$' = 1 := by
  have hf0 := countChar_eq_zero hf
  have ho0 := countChar_eq_zero ho
  have l1 : countChar " " '$' = 0 := by decide
  have l2 : countChar "NOT " '$' = 0 := by decide
  have l3 : countChar " $" '$' = 1 := by decide
  have l4 : countChar (Nat.repr k) '$' = 0 := countChar_natRepr k '$' (by decide)
  cases hnot : w.Not <;>
    simp only [Bool.false_eq_true, if_false, if_true, countChar_append,
      hf0, ho0, l1, l2, l3, l4]

lemma pg_where_count : ∀ (ws : List WhereClause) (i : Nat),
    (∀ w ∈ ws, w.Operator ≠ "IN") →
    (∀ w ∈ ws, charFree '$' w.Field ∧ charFree '$' w.Operator) →
    (((pgWhereLoop ws i).1).map (fun s => countChar s '$')).sum = ws.length
  | [], _, _, _ => by simp [pgWhereLoop]
  | w :: t, i, h, hfo => by
    have ih := pg_where_count t (i + 1) (fun x hx => h x (by simp [hx]))
      (fun x hx => hfo x (by simp [hx]))
    simp only [pgWhereLoop, if_neg (h w (by simp)), List.map_cons, List.sum_cons,
      List.length_cons]
    rw [ih, pg_frag_count_one w i (hfo w (by simp)).1 (hfo w (by simp)).2]
    omega

lemma pg_sql_count (q : Query)
    (hIN : ∀ w ∈ q.Wheres, w.Operator ≠ "IN")
    (hq : queryTextFree '$' q) :
    countChar (PostgresDriver.BuildQuery q).1 '$' = q.Wheres.length := by
  obtain ⟨ht, hf, hw, ho⟩ := hq
  show countChar (joinSep " " (pgParts q)) '$' = _
  rw [countChar_joinSep " " '$' (by decide)]
  simp only [pgParts, List.map_append, List.sum_append]
  have h1 : countChar ("SELECT " ++ joinSep ", " q.Fields ++ " FROM " ++ q.Table) '$' = 0 :=
    countChar_select q '$' (by refine ⟨?_, ?_, ?_⟩ <;> decide) ht hf
  have h2 : ((if q.Wheres.length > 0 then
      ["WHERE " ++ joinSep " AND " (pgWhereLoop q.Wheres 1).1] else []).map
        (fun s => countChar s '$')).sum = q.Wheres.length := by
    cases hws : q.Wheres with
    | nil => simp
    | cons w t =>
      rw [← hws]
      have hpos : q.Wheres.length > 0 := by rw [hws]; simp
      rw [if_pos hpos]
      simp only [List.map_cons, List.map_nil, List.sum_cons, List.sum_nil]
      rw [countChar_append, countChar_joinSep " AND " '$' (by decide),
        pg_where_count q.Wheres 1 hIN hw]
      have : countChar "WHERE " '$' = 0 := by decide
      omega
  have h3 : ((if q.Orders.length > 0 then
      ["ORDER BY " ++ joinSep ", " (q.Orders.map orderFragment)] else []).map
        (fun s => countChar s '$')).sum = 0 := by
    split
    · simp only [List.map_cons, List.map_nil, List.sum_cons, List.sum_nil]
      rw [countChar_orders q.Orders '$' (by refine ⟨?_, ?_, ?_⟩ <;> decide) ho]
      omega
    · simp
  have h4 : ((match q.LimitVal with
      | some n => ["LIMIT " ++ Int.repr n] | none => []).map
        (fun s => countChar s '$')).sum = 0 := by
    cases q.LimitVal with
    | none => simp
    | some n =>
      simp only [List.map_cons, List.map_nil, List.sum_cons, List.sum_nil]
      rw [countChar_limit n "LIMIT " '$' (by decide) (by decide) (by decide)]
      omega
  have h5 : ((match q.OffsetVal with
      | some n => ["OFFSET " ++ Int.repr n] | none => []).map
        (fun s => countChar s '$')).sum = 0 := by
    cases q.OffsetVal with
    | none => simp
    | some n =>
      simp only [List.map_cons, List.map_nil, List.sum_cons, List.sum_nil]
      rw [countChar_limit n "OFFSET " '$' (by decide) (by decide) (by decide)]
      omega
  simp only [List.map_cons, List.map_nil, List.sum_cons, List.sum_nil] at *
  omega

/-- C1: for queries with no IN clause (and placeholder characters absent
from the query's own text), each dialect compiler emits exactly one
placeholder per where-clause — so the placeholder count equals the length
of the argument list — and the arguments are the clause values in clause
order; the mysql compiler coincides with the sqlite one, and the postgres
placeholders are numbered $1..$n left to right. -/
theorem c1_placeholder_correspondence (q : Query)
    (hIN : ∀ w ∈ q.Wheres, w.Operator ≠ "IN")
    (hq : queryTextFree '?' q) (hd : queryTextFree '$' q) :
    (countChar (SQLiteDriver.BuildQuery q).1 '?' = (SQLiteDriver.BuildQuery q).2.length
      ∧ (SQLiteDriver.BuildQuery q).2 = q.Wheres.map (fun w => w.Value))
  ∧ MySQLDriver.BuildQuery q = SQLiteDriver.BuildQuery q
  ∧ (countChar (PostgresDriver.BuildQuery q).1 '$' = (PostgresDriver.BuildQuery q).2.length
      ∧ (PostgresDriver.BuildQuery q).2 = q.Wheres.map (fun w => w.Value)
      ∧ (pgWhereLoop q.Wheres 1).1
          = (List.range' 1 q.Wheres.length).zipWith
              (fun k w => w.Field ++ " " ++ (if w.Not then "NOT " ++ w.Operator else w.Operator)
                ++ " $" ++ Nat.repr k) q.Wheres) := by
  have hargs : (SQLiteDriver.BuildQuery q).2 = q.Wheres.map (fun w => w.Value) :=
    qmark_args_all q hIN
  have hpgargs : (PostgresDriver.BuildQuery q).2 = q.Wheres.map (fun w => w.Value) :=
    pgWhereLoop_args q.Wheres 1 hIN
  refine ⟨⟨?_, hargs⟩, rfl, ?_, hpgargs, pgWhereLoop_frags q.Wheres 1 hIN⟩
  · rw [qmark_sql_count q hIN hq, hargs, List.length_map]
  · rw [pg_sql_count q hIN hd, hpgargs, List.length_map]

/-- C1 witness: the correspondence applied at the concrete age-filter
query. -/
theorem c1_witness :
    ((∀ w ∈ ageQuery.Wheres, w.Operator ≠ "IN")
      ∧ queryTextFree '?' ageQuery ∧ queryTextFree '$' ageQuery)
  ∧ countChar (SQLiteDriver.BuildQuery ageQuery).1 '?'
      = (SQLiteDriver.BuildQuery ageQuery).2.length :=
  ⟨⟨by decide, by decide, by decide⟩,
    (c1_placeholder_correspondence ageQuery (by decide) (by decide) (by decide)).1.1⟩

lemma whereIn_eq (q : Query) (f : String) (vs : List Value) :
    QueryExecutor.WhereIn q f vs = { q with Wheres := q.Wheres ++ [inClause f vs] } := rfl

lemma group_inner_count (vs : List Value) :
    countChar (joinSep "," (vs.map fun _ => "?")) '?' = vs.length := by
  rw [countChar_joinSep "," '?' (by decide)]
  have hsum : ((vs.map fun _ => "?").map (fun s => countChar s '?')).sum
      = (vs.map fun _ => "?").length := by
    refine sum_map_ones _ _ ?_
    intro x hx
    obtain ⟨v, _, hve⟩ := List.mem_map.mp hx
    rw [← hve]
    decide
  rw [hsum, List.length_map]

lemma group_count (vs : List Value) :
    countChar ("(" ++ joinSep "," (vs.map fun _ => "?") ++ ")") '?' = vs.length := by
  simp only [countChar_append]
  rw [group_inner_count]
  have h1 : countChar "(" '?' = 0 := by decide
  have h2 : countChar ")" '?' = 0 := by decide
  omega

lemma in_text_count (f : String) (vs : List Value) (hf : charFree '?' f) :
    countChar (f ++ " " ++ "IN" ++ " "
      ++ ("(" ++ joinSep "," (vs.map fun _ => "?") ++ ")")) '?' = vs.length := by
  simp only [countChar_append]
  rw [countChar_eq_zero hf, group_inner_count]
  have h1 : countChar " " '?' = 0 := by decide
  have h2 : countChar "IN" '?' = 0 := by decide
  have h3 : countChar "(" '?' = 0 := by decide
  have h4 : countChar ")" '?' = 0 := by decide
  omega

lemma in_frag_count (f : String) (vs : List Value) (hf : charFree '?' f) :
    countChar (qmarkWhereFragment (inClause f vs)) '?' = vs.length := by
  have e : qmarkWhereFragment (inClause f vs)
      = f ++ " " ++ "IN" ++ " " ++ ("(" ++ joinSep "," (vs.map fun _ => "?") ++ ")") := rfl
  rw [e]
  exact in_text_count f vs hf

lemma qmark_wherein_count (q : Query) (f : String) (vs : List Value) (hf : charFree '?' f) :
    countChar (SQLiteDriver.BuildQuery (QueryExecutor.WhereIn q f vs)).1 '?'
      = countChar (SQLiteDriver.BuildQuery q).1 '?' + vs.length := by
  rw [whereIn_eq]
  show countChar (joinSep " " (qmarkParts _)) '?' = countChar (joinSep " " (qmarkParts q)) '?' + _
  rw [countChar_joinSep " " '?' (by decide), countChar_joinSep " " '?' (by decide)]
  simp only [qmarkParts, List.map_append, List.sum_append]
  have hA : ((if (q.Wheres ++ [inClause f vs]).length > 0 then
      ["WHERE " ++ joinSep " AND "
        (List.map qmarkWhereFragment q.Wheres ++ [qmarkWhereFragment (inClause f vs)])]
      else []).map (fun s => countChar s '?')).sum
      = ((if q.Wheres.length > 0 then
          ["WHERE " ++ joinSep " AND " (q.Wheres.map qmarkWhereFragment)]
          else []).map (fun s => countChar s '?')).sum + vs.length := by
    have hw : countChar "WHERE " '?' = 0 := by decide
    cases hws : q.Wheres with
    | nil =>
      simp only [List.map_nil, List.nil_append, List.length_cons, List.length_nil,
        gt_iff_lt, Nat.succ_pos, if_true, Nat.lt_irrefl, if_false, List.map_cons,
        List.sum_cons, List.sum_nil]
      rw [countChar_append]
      simp only [joinSep]
      rw [in_frag_count f vs hf, hw]
      omega
    | cons w t =>
      rw [← hws]
      have h1 : (q.Wheres ++ [inClause f vs]).length > 0 := by simp
      have h2 : q.Wheres.length > 0 := by rw [hws]; simp
      rw [if_pos h1, if_pos h2]
      simp only [List.map_cons, List.map_nil, List.sum_cons, List.sum_nil]
      rw [countChar_append, countChar_append,
        countChar_joinSep " AND " '?' (by decide), countChar_joinSep " AND " '?' (by decide),
        List.map_append, List.sum_append]
      simp only [List.map_cons, List.map_nil, List.sum_cons, List.sum_nil]
      rw [in_frag_count f vs hf]
      omega
  simp only [List.map_cons, List.map_nil, List.sum_cons, List.sum_nil] at *
  omega

lemma qmark_wherein_args (q : Query) (f : String) (vs : List Value) :
    (SQLiteDriver.BuildQuery (QueryExecutor.WhereIn q f vs)).2
      = (SQLiteDriver.BuildQuery q).2 := by
  rw [whereIn_eq]
  show qmarkArgs _ = qmarkArgs q
  simp only [qmarkArgs, List.filter_append]
  have : List.filter (fun w => w.Operator != "IN") [inClause f vs] = [] := by
    simp [inClause, List.filter_cons]
  rw [this, List.append_nil]

lemma pgWhereLoop_append_in (f : String) (vs : List Value) :
    ∀ (ws : List WhereClause) (i : Nat),
    pgWhereLoop (ws ++ [inClause f vs]) i
      = ((pgWhereLoop ws i).1
          ++ [f ++ " " ++ "IN" ++ " " ++ ("(" ++ joinSep "," (vs.map fun _ => "?") ++ ")")],
         (pgWhereLoop ws i).2)
  | [], i => by
    simp only [List.nil_append, pgWhereLoop, if_pos rfl]
    rfl
  | w :: t, i => by
    by_cases hw : w.Operator = "IN"
    · have ih := pgWhereLoop_append_in f vs t i
      simp only [List.cons_append, pgWhereLoop, if_pos hw, List.append_eq]
      rw [ih]
    · have ih := pgWhereLoop_append_in f vs t (i + 1)
      simp only [List.cons_append, pgWhereLoop, if_neg hw, List.append_eq]
      rw [ih]

lemma pg_wherein_count (q : Query) (f : String) (vs : List Value) (hf : charFree '?' f) :
    countChar (PostgresDriver.BuildQuery (QueryExecutor.WhereIn q f vs)).1 '?'
      = countChar (PostgresDriver.BuildQuery q).1 '?' + vs.length := by
  rw [whereIn_eq]
  show countChar (joinSep " " (pgParts _)) '?' = countChar (joinSep " " (pgParts q)) '?' + _
  rw [countChar_joinSep " " '?' (by decide), countChar_joinSep " " '?' (by decide)]
  simp only [pgParts, List.map_append, List.sum_append]
  have hfrag : countChar
      (f ++ " " ++ "IN" ++ " " ++ ("(" ++ joinSep "," (vs.map fun _ => "?") ++ ")")) '?'
      = vs.length := in_text_count f vs hf
  have hA : ((if (q.Wheres ++ [inClause f vs]).length > 0 then
      ["WHERE " ++ joinSep " AND " (pgWhereLoop (q.Wheres ++ [inClause f vs]) 1).1]
      else []).map (fun s => countChar s '?')).sum
      = ((if q.Wheres.length > 0 then
          ["WHERE " ++ joinSep " AND " (pgWhereLoop q.Wheres 1).1]
          else []).map (fun s => countChar s '?')).sum + vs.length := by
    have hw : countChar "WHERE " '?' = 0 := by decide
    rw [pgWhereLoop_append_in f vs q.Wheres 1]
    cases hws : q.Wheres with
    | nil =>
      simp only [hws, pgWhereLoop, List.nil_append, List.length_cons, List.length_nil,
        gt_iff_lt, Nat.succ_pos, if_true, Nat.lt_irrefl, if_false, List.map_cons,
        List.map_nil, List.sum_cons, List.sum_nil]
      rw [countChar_append]
      simp only [joinSep]
      rw [hfrag, hw]
      omega
    | cons w t =>
      rw [← hws]
      have h1 : (q.Wheres ++ [inClause f vs]).length > 0 := by simp
      have h2 : q.Wheres.length > 0 := by rw [hws]; simp
      rw [if_pos h1, if_pos h2]
      simp only [List.map_cons, List.map_nil, List.sum_cons, List.sum_nil]
      rw [countChar_append, countChar_append,
        countChar_joinSep " AND " '?' (by decide), countChar_joinSep " AND " '?' (by decide),
        List.map_append, List.sum_append]
      simp only [List.map_cons, List.map_nil, List.sum_cons, List.sum_nil]
      rw [hfrag]
      omega
  simp only [List.map_cons, List.map_nil, List.sum_cons, List.sum_nil] at *
  omega

/-- C10 counterexample: with an empty element list the stored placeholder
group is an empty pair of parentheses, the compiled sqlite SQL has zero
question marks and the argument list is empty — so an IN query does not
always have strictly more placeholder characters than bound arguments. -/
theorem c10_counterexample :
    SQLiteDriver.BuildQuery emptyInQuery = ("SELECT * FROM users WHERE id IN ()", [])
  ∧ ¬ (countChar (SQLiteDriver.BuildQuery emptyInQuery).1 '?'
        > (SQLiteDriver.BuildQuery emptyInQuery).2.length) := by
  constructor <;> decide

/-- C10 (amended): WhereIn discards the element values, storing the
placeholder-group string of exactly length-many question marks; the IN
branch of each compiler splices that string and binds nothing, so the
compiled SQL gains exactly length-many question-mark characters while the
argument list gains none — hence at least as many extra placeholder
characters as extra arguments, strictly more exactly when the element list
is nonempty. -/
theorem c10_wherein_amended (q : Query) (f : String) (vs : List Value)
    (hf : charFree '?' f) :
    (QueryExecutor.WhereIn q f vs).Wheres
      = q.Wheres ++ [{ Field := f, Operator := "IN",
                       Value := .str ("(" ++ joinSep ","
                         (List.replicate vs.length "?") ++ ")"),
                       Not := false }]
  ∧ countChar ("(" ++ joinSep "," (List.replicate vs.length "?") ++ ")") '?' = vs.length
  ∧ countChar (SQLiteDriver.BuildQuery (QueryExecutor.WhereIn q f vs)).1 '?'
      = countChar (SQLiteDriver.BuildQuery q).1 '?' + vs.length
  ∧ (SQLiteDriver.BuildQuery (QueryExecutor.WhereIn q f vs)).2
      = (SQLiteDriver.BuildQuery q).2
  ∧ countChar (PostgresDriver.BuildQuery (QueryExecutor.WhereIn q f vs)).1 '?'
      = countChar (PostgresDriver.BuildQuery q).1 '?' + vs.length
  ∧ (PostgresDriver.BuildQuery (QueryExecutor.WhereIn q f vs)).2
      = (PostgresDriver.BuildQuery q).2 := by
  have hrep : (vs.map fun _ => "?") = List.replicate vs.length "?" := by
    simp [List.map_const']
  refine ⟨?_, ?_, qmark_wherein_count q f vs hf, qmark_wherein_args q f vs,
    pg_wherein_count q f vs hf, ?_⟩
  · rw [whereIn_eq]
    simp only [inClause, hrep]
  · rw [← hrep]
    exact group_count vs
  · rw [whereIn_eq]
    show (pgWhereLoop (q.Wheres ++ [inClause f vs]) 1).2 = _
    rw [pgWhereLoop_append_in f vs q.Wheres 1]
    rfl

/-- C10 witness: the amended accounting applied at a concrete three-element
IN query. -/
theorem c10_witness :
    charFree '?' "id"
  ∧ countChar (SQLiteDriver.BuildQuery
      (QueryExecutor.WhereIn (NewQueryExecutor "users") "id" [.int 1, .int 2, .int 3])).1 '?'
      = countChar (SQLiteDriver.BuildQuery (NewQueryExecutor "users")).1 '?' + 3 :=
  ⟨by decide,
    (c10_wherein_amended (NewQueryExecutor "users") "id" [.int 1, .int 2, .int 3]
      (by decide)).2.2.1⟩

/-! ## Parse-failure characterization (claim C8) -/

lemma parseField_err (line : String) (m : ModelSchema)
    (h : (goFields line).length < 2) :
    parseField line m = .error "invalid field definition" := by
  unfold parseField
  rcases hg : goFields line with _ | ⟨a, _ | ⟨b, r⟩⟩
  · rfl
  · rfl
  · rw [hg] at h
    simp at h
    omega

lemma parseRelation_ok (line : String) (m : ModelSchema) (a b : String) (r : List String)
    (hg : goFields line = a :: b :: r) :
    ∃ m2, parseRelation line m = .ok m2 := by
  unfold parseRelation
  rw [hg]
  exact ⟨_, rfl⟩

lemma parseField_ok (line : String) (m : ModelSchema) (a b : String) (r : List String)
    (hg : goFields line = a :: b :: r) :
    ∃ m2, parseField line m = .ok m2 := by
  unfold parseField
  rw [hg]
  by_cases hs : hasSuf b "[]"
  · simp only [hs, if_true]
    exact parseRelation_ok line m a b r hg
  · simp only [hs, Bool.false_eq_true, if_false]
    exact ⟨_, rfl⟩

lemma parseAux_error_iff : ∀ (lines : List String) (cm : Option ModelSchema)
    (acc : List ModelSchema) (msg : String),
    parseLinesAux lines cm.isSome cm acc = .error msg
      ↔ ∃ l, firstMalformed lines cm.isSome = some l ∧ msg = fieldErrMsg l := by
  intro lines
  induction lines with
  | nil =>
    intro cm acc msg
    constructor
    · intro h
      cases cm <;> simp [parseLinesAux] at h
    · rintro ⟨l, hl, _⟩
      cases cm <;> simp [firstMalformed] at hl
  | cons rawLine rest ih =>
    intro cm acc msg
    cases cm with
    | none =>
      simp only [Option.isSome_none, parseLinesAux, firstMalformed, Bool.and_false,
        Bool.false_eq_true, if_false]
      split_ifs with hc1 hc2
      · simpa using ih none acc msg
      · simpa using
          ih (some (newModelFor (goTrim (trimSuf (trimPre (goTrim rawLine) "model ") "\x7b"))))
            acc msg
      · simpa using ih none acc msg
    | some m =>
      simp only [Option.isSome_some, parseLinesAux, firstMalformed, Bool.and_true, if_true]
      split_ifs with hc1 hc2 hc3 hlen
      · simpa using ih (some m) acc msg
      · simpa using
          ih (some (newModelFor (goTrim (trimSuf (trimPre (goTrim rawLine) "model ") "\x7b"))))
            (acc ++ [m]) msg
      · simpa using ih none (acc ++ [m]) msg
      · rw [parseField_err (goTrim rawLine) m hlen]
        have hstr : ("error parsing field '" ++ goTrim rawLine ++ "': ")
            ++ "invalid field definition" = fieldErrMsg (goTrim rawLine) := by
          unfold fieldErrMsg
          rw [String.append_assoc]
          rfl
        constructor
        · intro h
          refine ⟨goTrim rawLine, rfl, ?_⟩
          have hx := Except.error.inj h
          rw [← hx, hstr]
        · rintro ⟨l, hl, hmsg⟩
          obtain rfl : goTrim rawLine = l := Option.some.inj hl
          rw [hmsg, ← hstr]
      · rcases hgf : goFields (goTrim rawLine) with _ | ⟨a, _ | ⟨b, r⟩⟩
        · rw [hgf] at hlen
          simp at hlen
        · rw [hgf] at hlen
          simp at hlen
        · obtain ⟨m2, hm2⟩ := parseField_ok (goTrim rawLine) m a b r hgf
          rw [hm2]
          simpa using ih (some m2) acc msg

/-- C8 counterexample: for an indented malformed line the reported error
does not carry the raw line text — the parser trims the line before
reporting, so the message embeds the trimmed form x and the raw text
(two spaces then x) appears nowhere in it. -/
theorem c8_counterexample :
    ParseFile ["model User \x7b", "  x", "\x7d"]
      = .error "error parsing field 'x': invalid field definition"
  ∧ goTrim "  x" = "x"
  ∧ ¬ (("  x").data <:+:
      ("error parsing field 'x': invalid field definition").data) := by
  refine ⟨?_, ?_, ?_⟩ <;> decide

/-- C8 (amended): parsing fails exactly when some non-blank, non-comment
line inside a model block splits into fewer than two whitespace tokens,
the reported error carries that line's trimmed text, no Schema
accompanies the error (the result type is exclusive), and a model block
left unclosed at end-of-input is still committed, as the concrete
two-line schema shows. -/
theorem c8_parse_failure_iff :
    (∀ (lines : List String) (msg : String),
      ParseFile lines = .error msg
        ↔ ∃ l, firstMalformed lines false = some l ∧ msg = fieldErrMsg l)
  ∧ ParseFile ["model User \x7b", "  id Int @id"]
      = .ok { Models := [{ Name := "User", TableName := "users",
                           Fields := [{ Name := "id", Typ := "Int", Optional := false,
                                        Unique := false, Primary := true, AutoGen := false,
                                        Default := none, DatabaseType := "" }],
                           Relations := [] }] } := by
  constructor
  · intro lines msg
    have h := parseAux_error_iff lines none [] msg
    simp only [Option.isSome_none] at h
    unfold ParseFile
    cases hp : parseLinesAux lines false none [] with
    | ok ms =>
      rw [hp] at h
      simp only [reduceCtorEq, false_iff] at h
      simpa using h
    | error e =>
      rw [hp] at h
      simp only [Except.error.injEq] at h ⊢
      exact h
  · decide

end Comet
